import Mathlib

set_option maxHeartbeats 1000000

/-! Shallow embedding of the repository ingestion script (`ingest.py`):
the `RepoIngestor` class, its URL parsing, local-path handling, index
invalidation, external-tool invocation and cloning, together with the
HTTP route wrapper.  Stateful operations are modelled by an explicit
`Env` record (filesystem queries, path expansion, subprocess outcomes)
and an ordered trace of `Effect`s. -/

/-- Outcome of spawning an external process (`subprocess.run`): either it
exits with a return code and captured stderr, or the call raises an
exception (timeout, missing binary, ...). -/
inductive ToolOutcome where
  | exits (returncode : Nat) (stderr : String)
  | raises (msg : String)
deriving DecidableEq, Repr

/-- Filesystem / subprocess side effects performed by the script, recorded
in execution order. -/
inductive Effect where
  | mkdirP (dir : String)
  | writeFile (path : String) (content : String)
  | rmTree (dir : String)
  | runGitingest (cmd : List String)
  | runGitClone (cmd : List String)
  | removeFile (path : String)
deriving DecidableEq, Repr

/-- The result dictionary built by `RepoIngestor`; a key that is absent
from the Python dict is `none` here.  `local_repo := some none` models the
key being present with value `None`. -/
structure IngestResult where
  success : Bool
  error : Option String := none
  repo_input : Option String := none
  structured_text : Option String := none
  output_file : Option String := none
  local_repo : Option (Option String) := none
deriving DecidableEq, Repr

/-- The ambient OS environment: existence checks, path expansion and
resolution, the formatted timestamp, and the behaviour of the two
external programs (`gitingest` and `git clone`). -/
structure Env where
  isDir : String → Bool
  pathExists : String → Bool
  readFile : String → Except String String
  gitingestRun : String → String → ToolOutcome
  gitCloneRun : String → String → ToolOutcome
  expanduser : String → String
  expandvars : String → String
  pathNorm : String → String
  pathResolve : String → String
  pathName : String → String
  timestamp : String
  tempFile : String

/-! ### String helpers (Python `str.strip`, substring tests) -/

/-- Drop the characters satisfying `p` from both ends of a list. -/
def stripEdges (p : Char → Bool) (l : List Char) : List Char :=
  ((l.dropWhile p).reverse.dropWhile p).reverse

/-- Python `str.strip()` with no argument: remove surrounding whitespace. -/
def pyStrip (s : String) : String := ⟨stripEdges Char.isWhitespace s.data⟩

/-- Python `s.strip('"').strip("'")`: remove surrounding double quotes,
then surrounding single quotes. -/
def stripQuotes (s : String) : String :=
  ⟨stripEdges (fun c => c == '\'') (stripEdges (fun c => c == '"') s.data)⟩

/-- `startsWithChars pat l` is true when `pat` is an initial segment of `l`. -/
def startsWithChars : List Char → List Char → Bool
  | [], _ => true
  | _ :: _, [] => false
  | p :: ps, c :: cs => p == c && startsWithChars ps cs

/-- The characters of the literal `github.com`. -/
def githubHost : List Char := ['g', 'i', 't', 'h', 'u', 'b', '.', 'c', 'o', 'm']

/-- Python `"github.com" in s` (substring containment). -/
def containsGithub : List Char → Bool
  | [] => false
  | c :: cs => startsWithChars githubHost (c :: cs) || containsGithub cs

/-! ### The URL regex

`re.search(r"github\.com[:/](?P<owner>[^/]+)/(?P<repo>[^/]+?)(?:\.git)?$", url)`

modelled as: scan for the leftmost position where `github.com` is
followed by `:` or `/`, a non-empty slash-free owner, `/`, and a lazily
matched non-empty slash-free repo followed by an optional `.git` and the
end anchor.  Python's `$` matches at the end of the string or just
before a final newline. -/

/-- The `$` anchor: the unconsumed suffix is empty or a single final newline. -/
def endsHere (t : List Char) : Bool :=
  decide (t = [] ∨ t = ['\n'])

/-- `(?:\.git)?$` immediately succeeds on the remaining characters `rs`:
the literal `.git` followed by the end anchor. -/
def dotGitEnd (rs : List Char) : Bool :=
  decide (rs = ['.', 'g', 'i', 't'] ∨ rs = ['.', 'g', 'i', 't', '\n'])

/-- Lazy `(?P<repo>[^/]+?)(?:\.git)?$`: consume one non-slash character at
a time; after each character first try the greedy optional `.git` suffix,
then the bare end anchor; only extend when both fail. -/
def matchRepo : List Char → List Char → Option (List Char)
  | _, [] => none
  | acc, c :: rs =>
    if c = '/' then none
    else if dotGitEnd rs then some (acc ++ [c])
    else if endsHere rs then some (acc ++ [c])
    else matchRepo (acc ++ [c]) rs

/-- `(?P<owner>[^/]+)/` then the repo part: accumulate non-slash owner
characters up to the first `/`, require the owner non-empty, and hand the
rest to `matchRepo`. -/
def matchHostRest : List Char → List Char → Option (List Char × List Char)
  | _, [] => none
  | acc, c :: rest =>
    if c = '/' then
      if acc = [] then none
      else (matchRepo [] rest).map (fun rep => (acc, rep))
    else matchHostRest (acc ++ [c]) rest

/-- Attempt the whole pattern at the current position: the literal
`github.com`, one of `:` `/`, then owner and repo. -/
def tryMatchAt : List Char → Option (List Char × List Char)
  | 'g' :: 'i' :: 't' :: 'h' :: 'u' :: 'b' :: '.' :: 'c' :: 'o' :: 'm' :: sep :: rest =>
    if sep = ':' ∨ sep = '/' then matchHostRest [] rest else none
  | _ => none

/-- `re.search`: try the pattern at every position, left to right, and
return the first (leftmost) match. -/
def searchGithub : List Char → Option (List Char × List Char)
  | [] => none
  | c :: cs =>
    match tryMatchAt (c :: cs) with
    | some r => some r
    | none => searchGithub cs

/-- `RepoIngestor.parse_github_url`: extract owner and repo from a GitHub
URL, raising (`Except.error`) a `ValueError` when the pattern does not
match. -/
def parse_github_url (url : String) : Except String (String × String) :=
  match searchGithub url.data with
  | some (ow, rp) => Except.ok (⟨ow⟩, ⟨rp⟩)
  | none => Except.error ("Invalid GitHub URL: " ++ url)

/-! ### Classification and path normalization -/

/-- `RepoIngestor._is_probable_git_url`: the stripped string starts with an
HTTP(S)/SSH scheme or `git@`, or contains `github.com`. -/
def is_probable_git_url (s : String) : Bool :=
  let t := (pyStrip s).data
  startsWithChars "http://".data t || startsWithChars "https://".data t ||
    startsWithChars "git@".data t || startsWithChars "ssh://".data t ||
    containsGithub t

/-- `RepoIngestor._normalize_local_path`: strip whitespace and quotes, then
expand the user home shorthand and environment variables and normalize via
`Path`. -/
def normalize_local_path (env : Env) (s : String) : String :=
  env.pathNorm (env.expandvars (env.expanduser (stripQuotes (pyStrip s))))

/-- Python truthiness of the optional token: present and non-empty. -/
def tokenTruthy : Option String → Bool
  | some t => !(t == "")
  | none => false

/-! ### Index presence and deletion -/

/-- The per-repository index directory `indexes/{repo}`. -/
def index_dir (indexes_dir repo : String) : String := indexes_dir ++ "/" ++ repo

/-- `RepoIngestor.repo_index_exists`: all three artifact files exist under
`indexes/{repo}/`. -/
def repo_index_exists (env : Env) (repo : String) (indexes_dir : String) : Bool :=
  env.pathExists (index_dir indexes_dir repo ++ "/repo.index") &&
  env.pathExists (index_dir indexes_dir repo ++ "/chunks.json") &&
  env.pathExists (index_dir indexes_dir repo ++ "/graph.pkl")

/-- `RepoIngestor.delete_repo_index`: remove the whole directory when it
exists; returns whether a deletion happened plus the recorded effect. -/
def delete_repo_index (env : Env) (repo : String) (indexes_dir : String) :
    Bool × List Effect :=
  if env.pathExists (index_dir indexes_dir repo) then
    (true, [Effect.rmTree (index_dir indexes_dir repo)])
  else (false, [])

/-! ### External tool invocations -/

/-- The `gitingest` command line: `gitingest <input> --output <file>`, plus
`--token <t>` when the token is truthy and the input is not a directory. -/
def gitingest_cmd (env : Env) (token : Option String) (repo_input : String)
    (output_file : String) : List String :=
  ["gitingest", repo_input, "--output", output_file] ++
    (if tokenTruthy token && !(env.isDir repo_input) then
      ["--token", token.getD ""] else [])

/-- `RepoIngestor.run_gitingest`: build the command (adding `--token` only
for a truthy token and a non-directory input), spawn the tool, and convert
every failure (non-zero exit, exception, unreadable output file) into a
failure dictionary.  The `finally` block removes the temporary file when
one was allocated. -/
def run_gitingest (env : Env) (token : Option String) (repo_input : String)
    (output_file0 : String) : IngestResult × List Effect :=
  let usesTemp : Bool := output_file0 == ""
  let output_file := if usesTemp then env.tempFile else output_file0
  let cmd := gitingest_cmd env token repo_input output_file
  let cleanup : List Effect :=
    if usesTemp && env.pathExists env.tempFile then
      [Effect.removeFile env.tempFile] else []
  let effs := Effect.runGitingest cmd :: cleanup
  match env.gitingestRun repo_input output_file with
  | ToolOutcome.raises msg =>
    ({ success := false, error := some msg, repo_input := some repo_input }, effs)
  | ToolOutcome.exits rc stderr =>
    if rc ≠ 0 then
      ({ success := false, error := some (pyStrip stderr),
         repo_input := some repo_input }, effs)
    else
      match env.readFile output_file with
      | Except.error e =>
        ({ success := false, error := some e, repo_input := some repo_input }, effs)
      | Except.ok _ =>
        ({ success := true, structured_text := some "File Successfully Ingested!",
           repo_input := some repo_input }, effs)

/-- The clone URL: inject the token after `https://` when a truthy token is
given and the URL does not already embed credentials. -/
def clone_url_of (token : Option String) (url : String) : String :=
  if tokenTruthy token && !(url.contains '@') then
    url.replace "https://" ("https://" ++ token.getD "" ++ "@")
  else url

/-- `RepoIngestor.clone_repo`: parse the URL (propagating the `ValueError`),
remove any stale clone when `fresh`, create parent directories, and run a
shallow clone; a non-zero exit raises `RuntimeError`. -/
def clone_repo (env : Env) (token : Option String) (url : String)
    (target_dir : String) (fresh : Bool) : Except String String × List Effect :=
  match parse_github_url url with
  | Except.error e => (Except.error e, [])
  | Except.ok (owner, repo) =>
    let repo_path := target_dir ++ "/" ++ owner ++ "/" ++ repo
    let rmEffs := if fresh && env.pathExists repo_path then
        [Effect.rmTree repo_path] else []
    let mkEffs := [Effect.mkdirP (target_dir ++ "/" ++ owner)]
    let clone_url := clone_url_of token url
    let effs := rmEffs ++ mkEffs ++
      [Effect.runGitClone ["git", "clone", "--depth", "1", clone_url, repo_path]]
    match env.gitCloneRun clone_url repo_path with
    | ToolOutcome.raises msg => (Except.error msg, effs)
    | ToolOutcome.exits rc stderr =>
      if rc ≠ 0 then
        (Except.error ("Git clone failed: " ++ pyStrip stderr), effs)
      else (Except.ok repo_path, effs)

/-! ### The high-level orchestration -/

/-- The shared tail of `ingest_repo` after branch classification: stale
index invalidation, the timestamped output path, the `gitingest` run, and
the conditional clone. -/
def ingest_core (env : Env) (token : Option String) (owner repo effective_input
    output_dir : String) (clone : Bool) (indexes_dir : String) (is_url : Bool)
    (preEffs : List Effect) : Except String IngestResult × List Effect :=
  let idxEffs := if repo_index_exists env repo indexes_dir then
      (delete_repo_index env repo indexes_dir).snd else []
  let output_file :=
    output_dir ++ "/" ++ owner ++ "_" ++ repo ++ "_" ++ env.timestamp ++ ".txt"
  let g := run_gitingest env token effective_input output_file
  if !g.fst.success then (Except.ok g.fst, preEffs ++ idxEffs ++ g.snd)
  else
    let res := { g.fst with output_file := some output_file }
    if clone && is_url && !(env.isDir effective_input) then
      let c := clone_repo env token effective_input "my_repos" true
      match c.fst with
      | Except.ok p =>
        (Except.ok { res with local_repo := some (some p) },
         preEffs ++ idxEffs ++ g.snd ++ c.snd)
      | Except.error _ =>
        (Except.ok { res with local_repo := some none },
         preEffs ++ idxEffs ++ g.snd ++ c.snd)
    else (Except.ok res, preEffs ++ idxEffs ++ g.snd)

/-- `RepoIngestor.ingest_repo`: sanitize the input, classify it as a remote
URL or a local directory, write the local marker file or parse the URL
(the `ValueError` from `parse_github_url` propagates as `Except.error`),
then run the shared ingestion tail. -/
def ingest_repo (env : Env) (token : Option String) (repo_input : String)
    (output_dir : String) (clone : Bool) (indexes_dir : String) :
    Except String IngestResult × List Effect :=
  let e0 := [Effect.mkdirP output_dir]
  if pyStrip repo_input == "" then
    (Except.ok { success := false,
                 error := some "No repository URL or local path provided." }, e0)
  else
    let raw_input := pyStrip repo_input
    let is_url := is_probable_git_url raw_input
    if is_url then
      match parse_github_url raw_input with
      | Except.error e => (Except.error e, e0)
      | Except.ok (owner, repo) =>
        ingest_core env token owner repo raw_input output_dir clone indexes_dir
          true e0
    else
      let local_path := normalize_local_path env raw_input
      if !(env.isDir local_path) then
        (Except.ok { success := false,
                     error := some ("Local path not found or not a directory: " ++ local_path) },
         e0)
      else
        let repo_path := env.pathResolve local_path
        let repo := env.pathName repo_path
        let markerDir := "my_repos" ++ "/" ++ "Local" ++ "/" ++ repo
        ingest_core env token "Local" repo repo_path output_dir clone indexes_dir
          false
          (e0 ++ [Effect.mkdirP markerDir,
                  Effect.writeFile (markerDir ++ "/repopath.txt") repo_path])

/-- Python `x or None` applied to the optional token field of the request. -/
def or_none (t : Option String) : Option String :=
  match t with
  | some s => if s == "" then none else some s
  | none => none

/-- The Flask `/ingest` route body: run `ingest_repo` with the default
arguments and convert any propagated exception into a failure record. -/
def route_ingest (env : Env) (repo_link : String) (github_token : Option String) :
    IngestResult :=
  match (ingest_repo env (or_none github_token) repo_link "gitingest_outputs"
      true "indexes").fst with
  | Except.ok r => r
  | Except.error e => { success := false, error := some e }

/-! ### Concrete environments for witnesses and counterexamples -/

/-- A base environment: nothing exists on disk, path operations are the
identity, and both external tools succeed. -/
def envFalse : Env where
  isDir := fun _ => false
  pathExists := fun _ => false
  readFile := fun _ => Except.ok "text"
  gitingestRun := fun _ _ => ToolOutcome.exits 0 ""
  gitCloneRun := fun _ _ => ToolOutcome.exits 0 ""
  expanduser := id
  expandvars := id
  pathNorm := id
  pathResolve := id
  pathName := id
  timestamp := "20250101_000000"
  tempFile := "tmp.txt"

/-- Environment where the local directory `mydir` exists and resolves to
the absolute path `/abs/mydir`. -/
def envLocal : Env :=
  { envFalse with
    isDir := fun s => s == "mydir"
    pathResolve := fun s => "/abs/" ++ s }

/-- Environment where every path exists (in particular, a complete index). -/
def envAllExists : Env :=
  { envFalse with pathExists := fun _ => true }

/-- Environment whose ingestion tool exits with status 1 and stderr
`auth failed`. -/
def envToolFails : Env :=
  { envFalse with gitingestRun := fun _ _ => ToolOutcome.exits 1 "auth failed" }

/-- Environment whose clone client exits with status 128. -/
def envCloneFails : Env :=
  { envFalse with gitCloneRun := fun _ _ => ToolOutcome.exits 128 "fatal: repo not found" }

/-! ### Helper lemmas -/

/-- A character list with no `/`, as matched by `[^/]` classes. -/
def noSlash (l : List Char) : Prop := ∀ c ∈ l, c ≠ '/'

instance noSlash.instDecidable (l : List Char) : Decidable (noSlash l) :=
  inferInstanceAs (Decidable (∀ c ∈ l, c ≠ '/'))

theorem strData (s t : String) : (s ++ t).data = s.data ++ t.data := rfl

theorem append_ne_empty_right (s t : String) (h : t.data ≠ []) : ¬ s ++ t = "" := by
  intro he
  have h2 : (s ++ t).data = "".data := congrArg String.data he
  rw [strData] at h2
  exact h (List.append_eq_nil.mp h2).2

/-- A non-empty slash-free segment that does not end in `.git` or a newline
is consumed whole by the lazy repo matcher. -/
theorem matchRepo_plain (B : List Char) (hne : B ≠ []) (hs : noSlash B)
    (hg : ¬ ['.', 'g', 'i', 't'] <:+ B) (hn : ¬ ['\n'] <:+ B) :
    ∀ acc, matchRepo acc B = some (acc ++ B) := by
  induction B with
  | nil => cases hne rfl
  | cons c rs ih =>
    intro acc
    have hc : ¬ c = '/' := hs c (by simp)
    by_cases hrs : rs = []
    · subst hrs
      simp [matchRepo, hc, dotGitEnd, endsHere]
    · have hdg : dotGitEnd rs = false := by
        simp only [dotGitEnd, decide_eq_false_iff_not]
        rintro (h1 | h1)
        · exact hg (by rw [h1]; exact ⟨[c], rfl⟩)
        · exact hn (by rw [h1]; exact ⟨c :: ['.', 'g', 'i', 't'], rfl⟩)
      have heh : endsHere rs = false := by
        simp only [endsHere, decide_eq_false_iff_not]
        rintro (h1 | h1)
        · exact hrs h1
        · exact hn (by rw [h1]; exact ⟨[c], rfl⟩)
      have hg' : ¬ ['.', 'g', 'i', 't'] <:+ rs :=
        fun h => hg (h.trans (List.suffix_cons c rs))
      have hn' : ¬ ['\n'] <:+ rs := fun h => hn (h.trans (List.suffix_cons c rs))
      have hs' : noSlash rs := fun x hx => hs x (List.mem_cons_of_mem c hx)
      rw [matchRepo, if_neg hc, hdg]
      simp only [Bool.false_eq_true, if_false, heh]
      rw [ih hrs hs' hg' hn' (acc ++ [c])]
      simp

/-- A non-empty slash-free segment followed by a literal `.git` is matched
with exactly that trailing `.git` stripped. -/
theorem matchRepo_dotgit (B : List Char) (hne : B ≠ []) (hs : noSlash B) :
    ∀ acc, matchRepo acc (B ++ ['.', 'g', 'i', 't']) = some (acc ++ B) := by
  induction B with
  | nil => cases hne rfl
  | cons c rs ih =>
    intro acc
    have hc : ¬ c = '/' := hs c (by simp)
    by_cases hrs : rs = []
    · subst hrs
      simp [matchRepo, hc, dotGitEnd]
    · have hdg : dotGitEnd (rs ++ ['.', 'g', 'i', 't']) = false := by
        simp only [dotGitEnd, decide_eq_false_iff_not]
        rintro (h1 | h1)
        · have hlen := congrArg List.length h1
          simp at hlen
          exact hrs hlen
        · have h2 := congrArg List.reverse h1
          simp [List.reverse_append] at h2
      have heh : endsHere (rs ++ ['.', 'g', 'i', 't']) = false := by
        simp only [endsHere, decide_eq_false_iff_not]
        rintro (h1 | h1)
        · simp at h1
        · have hlen := congrArg List.length h1
          simp at hlen
      have hs' : noSlash rs := fun x hx => hs x (List.mem_cons_of_mem c hx)
      rw [List.cons_append, matchRepo, if_neg hc, hdg]
      simp only [Bool.false_eq_true, if_false, heh]
      rw [ih hrs hs' (acc ++ [c])]
      simp

/-- Owner accumulation: a slash-free owner segment up to the first `/` is
taken whole, and the repo matcher runs on the remainder. -/
theorem matchHostRest_spec (A : List Char) (hs : noSlash A) :
    ∀ acc B, acc ++ A ≠ [] →
      matchHostRest acc (A ++ '/' :: B)
        = (matchRepo [] B).map (fun rep => (acc ++ A, rep)) := by
  induction A with
  | nil =>
    intro acc B hne
    rw [List.append_nil] at hne
    rw [List.nil_append, matchHostRest, if_pos rfl, if_neg hne]
    simp
  | cons a A' ih =>
    intro acc B hne
    have ha : ¬ a = '/' := hs a (by simp)
    have hs' : noSlash A' := fun x hx => hs x (List.mem_cons_of_mem a hx)
    rw [List.cons_append, matchHostRest, if_neg ha,
      ih hs' (acc ++ [a]) B (by simp)]
    simp

theorem searchGithub_cons_none {c : Char} {cs : List Char}
    (h : tryMatchAt (c :: cs) = none) :
    searchGithub (c :: cs) = searchGithub cs := by
  rw [searchGithub, h]

theorem searchGithub_cons_some {c : Char} {cs : List Char}
    {r : List Char × List Char} (h : tryMatchAt (c :: cs) = some r) :
    searchGithub (c :: cs) = some r := by
  rw [searchGithub, h]

/-- Skipping the `https://` prefix, the leftmost regex match on
`https://github.com/OWNER/SEG` sits at the `github.com` occurrence and
uses the two path segments, provided the repo matcher succeeds. -/
theorem searchGithub_https (o seg rep : List Char) (ho : o ≠ []) (hs : noSlash o)
    (hrep : matchRepo [] seg = some rep) :
    searchGithub
      ('h' :: 't' :: 't' :: 'p' :: 's' :: ':' :: '/' :: '/' :: 'g' :: 'i' ::
        't' :: 'h' :: 'u' :: 'b' :: '.' :: 'c' :: 'o' :: 'm' :: '/' ::
        (o ++ '/' :: seg))
      = some (o, rep) := by
  have hmr : matchHostRest [] (o ++ '/' :: seg) = some (o, rep) := by
    rw [matchHostRest_spec o hs [] seg (by simpa using ho), hrep]
    simp
  have hred : searchGithub
      ('h' :: 't' :: 't' :: 'p' :: 's' :: ':' :: '/' :: '/' :: 'g' :: 'i' ::
        't' :: 'h' :: 'u' :: 'b' :: '.' :: 'c' :: 'o' :: 'm' :: '/' ::
        (o ++ '/' :: seg))
      = searchGithub
        ('g' :: 'i' :: 't' :: 'h' :: 'u' :: 'b' :: '.' :: 'c' :: 'o' :: 'm' ::
          '/' :: (o ++ '/' :: seg)) := rfl
  have ht : tryMatchAt
      ('g' :: 'i' :: 't' :: 'h' :: 'u' :: 'b' :: '.' :: 'c' :: 'o' :: 'm' ::
        '/' :: (o ++ '/' :: seg))
      = matchHostRest [] (o ++ '/' :: seg) := rfl
  rw [hred]
  exact searchGithub_cons_some (ht.trans hmr)

/-- `parse_github_url` on a well-shaped `https` URL returns the owner
segment and the repo-matcher result. -/
theorem parse_github_url_concat (o seg : String) (rep : List Char)
    (ho : o.data ≠ []) (hs : noSlash o.data)
    (hrep : matchRepo [] seg.data = some rep) :
    parse_github_url ("https://github.com/" ++ o ++ "/" ++ seg)
      = Except.ok (o, ⟨rep⟩) := by
  have hdata : ("https://github.com/" ++ o ++ "/" ++ seg).data
      = 'h' :: 't' :: 't' :: 'p' :: 's' :: ':' :: '/' :: '/' :: 'g' :: 'i' ::
        't' :: 'h' :: 'u' :: 'b' :: '.' :: 'c' :: 'o' :: 'm' :: '/' ::
        (o.data ++ '/' :: seg.data) := by
    show ((['h', 't', 't', 'p', 's', ':', '/', '/', 'g', 'i', 't', 'h', 'u',
        'b', '.', 'c', 'o', 'm', '/'] ++ o.data) ++ ['/']) ++ seg.data = _
    simp
  rw [parse_github_url, hdata, searchGithub_https o.data seg.data rep ho hs hrep]

/-- C8: For every string of the form `https://github.com/<owner>/<repo>` or
`https://github.com/<owner>/<repo>.git` (owner and repo non-empty and
slash-free; for the bare form the repo segment must not itself end in the
ambiguous `.git` suffix or in a newline), `parse_github_url` returns
exactly that owner and that repo, with the trailing `.git` suffix
stripped. -/
theorem c8_parse_extracts_owner_repo (o r : String) (ho : o.data ≠ [])
    (hr : r.data ≠ []) (hos : noSlash o.data) (hrs : noSlash r.data) :
    (¬ ['.', 'g', 'i', 't'] <:+ r.data → ¬ ['\n'] <:+ r.data →
      parse_github_url ("https://github.com/" ++ o ++ "/" ++ r)
        = Except.ok (o, r)) ∧
    parse_github_url ("https://github.com/" ++ o ++ "/" ++ (r ++ ".git"))
      = Except.ok (o, r) := by
  constructor
  · intro hg hn
    exact parse_github_url_concat o r r.data ho hos
      (matchRepo_plain r.data hr hrs hg hn [])
  · have hseg : (r ++ ".git").data = r.data ++ ['.', 'g', 'i', 't'] := rfl
    exact parse_github_url_concat o (r ++ ".git") r.data ho hos
      (hseg ▸ matchRepo_dotgit r.data hr hrs [])

/-- Witness for C8 at a concrete owner and repo. -/
theorem c8_witness :
    parse_github_url "https://github.com/octo/Hello-World"
      = Except.ok ("octo", "Hello-World") ∧
    parse_github_url "https://github.com/octo/Hello-World.git"
      = Except.ok ("octo", "Hello-World") := by
  have h := c8_parse_extracts_owner_repo "octo" "Hello-World" (by decide)
    (by decide) (by decide) (by decide)
  exact ⟨h.1 (by decide) (by decide), h.2⟩

/-! ### Behaviour of `run_gitingest` -/
theorem ofile_beq_empty_false (od o r ts : String) :
    ((od ++ "/" ++ o ++ "_" ++ r ++ "_" ++ ts ++ ".txt") == "") = false := by
  rw [beq_eq_false_iff_ne]
  exact append_ne_empty_right _ ".txt" (by decide)

theorem run_gitingest_snd (env : Env) (tok : Option String) (inp f : String)
    (hf : (f == "") = false) :
    (run_gitingest env tok inp f).snd
      = [Effect.runGitingest (gitingest_cmd env tok inp f)] := by
  unfold run_gitingest
  rw [hf]
  simp only [Bool.false_eq_true, if_false, Bool.false_and]
  cases env.gitingestRun inp f with
  | exits rc st =>
    by_cases hrc : rc = 0
    · simp only [hrc, ne_eq, not_true_eq_false, Bool.false_eq_true, if_false]
      cases env.readFile f <;> rfl
    · simp [hrc]
  | raises m => rfl

theorem run_gitingest_fail (env : Env) (tok : Option String) (inp f : String)
    (hf : (f == "") = false) (rc : Nat) (st : String)
    (hrun : env.gitingestRun inp f = ToolOutcome.exits rc st) (hrc : rc ≠ 0) :
    (run_gitingest env tok inp f).fst
      = { success := false, error := some (pyStrip st),
          repo_input := some inp } := by
  unfold run_gitingest
  rw [hf]
  simp only [Bool.false_eq_true, if_false, Bool.false_and]
  rw [hrun]
  simp [hrc]

theorem run_gitingest_ok (env : Env) (tok : Option String) (inp f : String)
    (hf : (f == "") = false) (st txt : String)
    (hrun : env.gitingestRun inp f = ToolOutcome.exits 0 st)
    (hread : env.readFile f = Except.ok txt) :
    (run_gitingest env tok inp f).fst
      = { success := true, structured_text := some "File Successfully Ingested!",
          repo_input := some inp } := by
  unfold run_gitingest
  rw [hf]
  simp only [Bool.false_eq_true, if_false, Bool.false_and]
  rw [hrun]
  simp [hread]

theorem run_gitingest_repo_input (env : Env) (tok : Option String)
    (inp f : String) (hf : (f == "") = false) :
    (run_gitingest env tok inp f).fst.repo_input = some inp := by
  unfold run_gitingest
  rw [hf]
  simp only [Bool.false_eq_true, if_false, Bool.false_and]
  cases env.gitingestRun inp f with
  | exits rc st =>
    by_cases hrc : rc = 0
    · simp only [hrc, ne_eq, not_true_eq_false, Bool.false_eq_true, if_false]
      cases env.readFile f <;> rfl
    · simp [hrc]
  | raises m => rfl


/-! ### Behaviour of `clone_repo` -/

theorem clone_repo_ok (env : Env) (tok : Option String) (url o r cst : String)
    (hparse : parse_github_url url = Except.ok (o, r))
    (hrun : env.gitCloneRun (clone_url_of tok url)
        ("my_repos" ++ "/" ++ o ++ "/" ++ r) = ToolOutcome.exits 0 cst) :
    clone_repo env tok url "my_repos" true
      = (Except.ok ("my_repos" ++ "/" ++ o ++ "/" ++ r),
         (if env.pathExists ("my_repos" ++ "/" ++ o ++ "/" ++ r) then
            [Effect.rmTree ("my_repos" ++ "/" ++ o ++ "/" ++ r)] else [])
          ++ [Effect.mkdirP ("my_repos" ++ "/" ++ o)]
          ++ [Effect.runGitClone ["git", "clone", "--depth", "1",
                clone_url_of tok url, "my_repos" ++ "/" ++ o ++ "/" ++ r]]) := by
  unfold clone_repo
  rw [hparse]
  simp only [Bool.true_and]
  rw [hrun]
  simp

theorem clone_repo_fail (env : Env) (tok : Option String) (url o r : String)
    (rc : Nat) (cst : String)
    (hparse : parse_github_url url = Except.ok (o, r))
    (hrun : env.gitCloneRun (clone_url_of tok url)
        ("my_repos" ++ "/" ++ o ++ "/" ++ r) = ToolOutcome.exits rc cst)
    (hrc : rc ≠ 0) :
    clone_repo env tok url "my_repos" true
      = (Except.error ("Git clone failed: " ++ pyStrip cst),
         (if env.pathExists ("my_repos" ++ "/" ++ o ++ "/" ++ r) then
            [Effect.rmTree ("my_repos" ++ "/" ++ o ++ "/" ++ r)] else [])
          ++ [Effect.mkdirP ("my_repos" ++ "/" ++ o)]
          ++ [Effect.runGitClone ["git", "clone", "--depth", "1",
                clone_url_of tok url, "my_repos" ++ "/" ++ o ++ "/" ++ r]]) := by
  unfold clone_repo
  rw [hparse]
  simp only [Bool.true_and]
  rw [hrun]
  simp [hrc]

/-- The effect trace of a fresh clone into `my_repos`, for any clone
outcome. -/
theorem clone_repo_snd (env : Env) (tok : Option String) (url o r : String)
    (hparse : parse_github_url url = Except.ok (o, r)) :
    (clone_repo env tok url "my_repos" true).snd
      = (if env.pathExists ("my_repos" ++ "/" ++ o ++ "/" ++ r) then
           [Effect.rmTree ("my_repos" ++ "/" ++ o ++ "/" ++ r)] else [])
        ++ [Effect.mkdirP ("my_repos" ++ "/" ++ o)]
        ++ [Effect.runGitClone ["git", "clone", "--depth", "1",
              clone_url_of tok url, "my_repos" ++ "/" ++ o ++ "/" ++ r]] := by
  unfold clone_repo
  rw [hparse]
  simp only [Bool.true_and]
  cases env.gitCloneRun (clone_url_of tok url) ("my_repos" ++ "/" ++ o ++ "/" ++ r) with
  | exits rc st => by_cases hrc : rc = 0 <;> simp [hrc]
  | raises m => rfl

/-! ### Branches of `ingest_repo` -/

/-- A non-empty trimmed remote input with a parsable URL enters the shared
tail with the parsed owner and repo and the raw input as effective input. -/
theorem ingest_repo_url_branch (env : Env) (tok : Option String)
    (raw od idx : String) (cl : Bool) (owner repo : String)
    (htrim : pyStrip raw = raw) (hne : raw ≠ "")
    (hurl : is_probable_git_url raw = true)
    (hparse : parse_github_url raw = Except.ok (owner, repo)) :
    ingest_repo env tok raw od cl idx
      = ingest_core env tok owner repo raw od cl idx true [Effect.mkdirP od] := by
  unfold ingest_repo
  rw [htrim, if_neg (by simp [hne])]
  simp only [hurl, eq_self_iff_true, if_true]
  rw [hparse]

/-- A non-empty trimmed local input naming an existing directory writes the
marker file and enters the shared tail with owner `Local`, the resolved
path's final segment as repo, and the resolved path as effective input. -/
theorem ingest_repo_local_branch (env : Env) (tok : Option String)
    (raw od idx : String) (cl : Bool)
    (htrim : pyStrip raw = raw) (hne : raw ≠ "")
    (hurl : is_probable_git_url raw = false)
    (hdir : env.isDir (normalize_local_path env raw) = true) :
    ingest_repo env tok raw od cl idx
      = ingest_core env tok "Local"
          (env.pathName (env.pathResolve (normalize_local_path env raw)))
          (env.pathResolve (normalize_local_path env raw)) od cl idx false
          ([Effect.mkdirP od]
            ++ [Effect.mkdirP ("my_repos" ++ "/" ++ "Local" ++ "/"
                  ++ env.pathName (env.pathResolve (normalize_local_path env raw))),
                Effect.writeFile ("my_repos" ++ "/" ++ "Local" ++ "/"
                  ++ env.pathName (env.pathResolve (normalize_local_path env raw))
                  ++ "/repopath.txt")
                  (env.pathResolve (normalize_local_path env raw))]) := by
  unfold ingest_repo
  rw [htrim, if_neg (by simp [hne])]
  simp only [hurl, Bool.false_eq_true, if_false, hdir, Bool.not_true]

/-- A non-empty trimmed local input whose normalized path is not an
existing directory fails with the not-found message, leaving only the
output-directory creation in the trace. -/
theorem ingest_repo_local_missing (env : Env) (tok : Option String)
    (raw od idx : String) (cl : Bool)
    (htrim : pyStrip raw = raw) (hne : raw ≠ "")
    (hurl : is_probable_git_url raw = false)
    (hdir : env.isDir (normalize_local_path env raw) = false) :
    ingest_repo env tok raw od cl idx
      = (Except.ok { success := false,
                     error := some ("Local path not found or not a directory: "
                       ++ normalize_local_path env raw) },
         [Effect.mkdirP od]) := by
  unfold ingest_repo
  rw [htrim, if_neg (by simp [hne])]
  simp only [hurl, Bool.false_eq_true, if_false, hdir, Bool.not_false, if_true]

/-! ### Scenarios of the shared ingestion tail -/

/-- Tool failure: the failure dictionary is returned unchanged and no clone
effects are recorded. -/
theorem ingest_core_tool_fail (env : Env) (tok : Option String)
    (o r inp od idx : String) (cl isu : Bool) (pre : List Effect)
    (rc : Nat) (st : String)
    (hrun : env.gitingestRun inp
        (od ++ "/" ++ o ++ "_" ++ r ++ "_" ++ env.timestamp ++ ".txt")
        = ToolOutcome.exits rc st)
    (hrc : rc ≠ 0) :
    ingest_core env tok o r inp od cl idx isu pre
      = (Except.ok { success := false, error := some (pyStrip st),
                     repo_input := some inp },
         pre ++ (if repo_index_exists env r idx then
             (delete_repo_index env r idx).snd else [])
           ++ [Effect.runGitingest (gitingest_cmd env tok inp
                (od ++ "/" ++ o ++ "_" ++ r ++ "_" ++ env.timestamp ++ ".txt"))]) := by
  have hf := ofile_beq_empty_false od o r env.timestamp
  have h1 := run_gitingest_fail env tok inp _ hf rc st hrun hrc
  have h2 := run_gitingest_snd env tok inp _ hf
  simp only [ingest_core]
  rw [h1, h2]
  simp

/-- Tool success with cloning requested and succeeding. -/
theorem ingest_core_ok_clone_ok (env : Env) (tok : Option String)
    (o r inp od idx : String) (pre : List Effect) (st cst txt : String)
    (hrun : env.gitingestRun inp
        (od ++ "/" ++ o ++ "_" ++ r ++ "_" ++ env.timestamp ++ ".txt")
        = ToolOutcome.exits 0 st)
    (hread : env.readFile
        (od ++ "/" ++ o ++ "_" ++ r ++ "_" ++ env.timestamp ++ ".txt")
        = Except.ok txt)
    (hdir : env.isDir inp = false)
    (hparse : parse_github_url inp = Except.ok (o, r))
    (hclone : env.gitCloneRun (clone_url_of tok inp)
        ("my_repos" ++ "/" ++ o ++ "/" ++ r) = ToolOutcome.exits 0 cst) :
    ingest_core env tok o r inp od true idx true pre
      = (Except.ok { success := true,
                     structured_text := some "File Successfully Ingested!",
                     repo_input := some inp,
                     output_file := some (od ++ "/" ++ o ++ "_" ++ r ++ "_"
                       ++ env.timestamp ++ ".txt"),
                     local_repo := some (some ("my_repos" ++ "/" ++ o ++ "/" ++ r)) },
         pre ++ (if repo_index_exists env r idx then
             (delete_repo_index env r idx).snd else [])
           ++ [Effect.runGitingest (gitingest_cmd env tok inp
                (od ++ "/" ++ o ++ "_" ++ r ++ "_" ++ env.timestamp ++ ".txt"))]
           ++ ((if env.pathExists ("my_repos" ++ "/" ++ o ++ "/" ++ r) then
                 [Effect.rmTree ("my_repos" ++ "/" ++ o ++ "/" ++ r)] else [])
               ++ [Effect.mkdirP ("my_repos" ++ "/" ++ o)]
               ++ [Effect.runGitClone ["git", "clone", "--depth", "1",
                     clone_url_of tok inp, "my_repos" ++ "/" ++ o ++ "/" ++ r]])) := by
  have hf := ofile_beq_empty_false od o r env.timestamp
  have h1 := run_gitingest_ok env tok inp _ hf st txt hrun hread
  have h2 := run_gitingest_snd env tok inp _ hf
  have h3 := clone_repo_ok env tok inp o r cst hparse hclone
  simp only [ingest_core]
  rw [h1, h2, h3]
  simp [hdir]

/-- Tool success with cloning requested but failing: the overall result
stays successful with a null `local_repo`. -/
theorem ingest_core_ok_clone_fail (env : Env) (tok : Option String)
    (o r inp od idx : String) (pre : List Effect) (st cst txt : String)
    (rc : Nat)
    (hrun : env.gitingestRun inp
        (od ++ "/" ++ o ++ "_" ++ r ++ "_" ++ env.timestamp ++ ".txt")
        = ToolOutcome.exits 0 st)
    (hread : env.readFile
        (od ++ "/" ++ o ++ "_" ++ r ++ "_" ++ env.timestamp ++ ".txt")
        = Except.ok txt)
    (hdir : env.isDir inp = false)
    (hparse : parse_github_url inp = Except.ok (o, r))
    (hclone : env.gitCloneRun (clone_url_of tok inp)
        ("my_repos" ++ "/" ++ o ++ "/" ++ r) = ToolOutcome.exits rc cst)
    (hrc : rc ≠ 0) :
    ingest_core env tok o r inp od true idx true pre
      = (Except.ok { success := true,
                     structured_text := some "File Successfully Ingested!",
                     repo_input := some inp,
                     output_file := some (od ++ "/" ++ o ++ "_" ++ r ++ "_"
                       ++ env.timestamp ++ ".txt"),
                     local_repo := some none },
         pre ++ (if repo_index_exists env r idx then
             (delete_repo_index env r idx).snd else [])
           ++ [Effect.runGitingest (gitingest_cmd env tok inp
                (od ++ "/" ++ o ++ "_" ++ r ++ "_" ++ env.timestamp ++ ".txt"))]
           ++ ((if env.pathExists ("my_repos" ++ "/" ++ o ++ "/" ++ r) then
                 [Effect.rmTree ("my_repos" ++ "/" ++ o ++ "/" ++ r)] else [])
               ++ [Effect.mkdirP ("my_repos" ++ "/" ++ o)]
               ++ [Effect.runGitClone ["git", "clone", "--depth", "1",
                     clone_url_of tok inp, "my_repos" ++ "/" ++ o ++ "/" ++ r]])) := by
  have hf := ofile_beq_empty_false od o r env.timestamp
  have h1 := run_gitingest_ok env tok inp _ hf st txt hrun hread
  have h2 := run_gitingest_snd env tok inp _ hf
  have h3 := clone_repo_fail env tok inp o r rc cst hparse hclone hrc
  simp only [ingest_core]
  rw [h1, h2, h3]
  simp [hdir]

/-- Tool success without cloning (the clone condition is false). -/
theorem ingest_core_ok_noclone (env : Env) (tok : Option String)
    (o r inp od idx : String) (cl isu : Bool) (pre : List Effect) (st txt : String)
    (hrun : env.gitingestRun inp
        (od ++ "/" ++ o ++ "_" ++ r ++ "_" ++ env.timestamp ++ ".txt")
        = ToolOutcome.exits 0 st)
    (hread : env.readFile
        (od ++ "/" ++ o ++ "_" ++ r ++ "_" ++ env.timestamp ++ ".txt")
        = Except.ok txt)
    (hnc : (cl && isu && !env.isDir inp) = false) :
    ingest_core env tok o r inp od cl idx isu pre
      = (Except.ok { success := true,
                     structured_text := some "File Successfully Ingested!",
                     repo_input := some inp,
                     output_file := some (od ++ "/" ++ o ++ "_" ++ r ++ "_"
                       ++ env.timestamp ++ ".txt") },
         pre ++ (if repo_index_exists env r idx then
             (delete_repo_index env r idx).snd else [])
           ++ [Effect.runGitingest (gitingest_cmd env tok inp
                (od ++ "/" ++ o ++ "_" ++ r ++ "_" ++ env.timestamp ++ ".txt"))]) := by
  have hf := ofile_beq_empty_false od o r env.timestamp
  have h1 := run_gitingest_ok env tok inp _ hf st txt hrun hread
  have h2 := run_gitingest_snd env tok inp _ hf
  simp only [ingest_core]
  rw [h1, h2]
  simp [hnc]

/-- In every scenario, the tail's trace starts with the branch prefix, then
the conditional index deletion, then the tool invocation. -/
theorem ingest_core_snd_shape (env : Env) (tok : Option String)
    (o r inp od idx : String) (cl isu : Bool) (pre : List Effect) :
    ∃ rest, (ingest_core env tok o r inp od cl idx isu pre).snd
      = pre ++ (if repo_index_exists env r idx then
          (delete_repo_index env r idx).snd else [])
        ++ Effect.runGitingest (gitingest_cmd env tok inp
            (od ++ "/" ++ o ++ "_" ++ r ++ "_" ++ env.timestamp ++ ".txt")) :: rest := by
  have hf := ofile_beq_empty_false od o r env.timestamp
  have h2 := run_gitingest_snd env tok inp _ hf
  simp only [ingest_core]
  cases hgs : (run_gitingest env tok inp
      (od ++ "/" ++ o ++ "_" ++ r ++ "_" ++ env.timestamp ++ ".txt")).fst.success
  · exact ⟨[], by simp [hgs, h2]⟩
  · by_cases hcl : (cl && isu && !env.isDir inp) = true
    · cases hcf : (clone_repo env tok inp "my_repos" true).fst with
      | ok p =>
        exact ⟨(clone_repo env tok inp "my_repos" true).snd,
          by simp [hgs, hcl, hcf, h2]⟩
      | error e =>
        exact ⟨(clone_repo env tok inp "my_repos" true).snd,
          by simp [hgs, hcl, hcf, h2]⟩
    · have hcl' : (cl && isu && !env.isDir inp) = false :=
        Bool.not_eq_true _ ▸ eq_false_of_ne_true hcl
      exact ⟨[], by simp [hgs, hcl', h2]⟩

/-- In every scenario where the input parses as a GitHub URL, the trace is
either exactly prefix, index deletion, tool run — or that followed by the
fresh-clone effects. -/
theorem ingest_core_snd_cases (env : Env) (tok : Option String)
    (o r inp od idx : String) (cl isu : Bool) (pre : List Effect)
    (hparse : parse_github_url inp = Except.ok (o, r)) :
    (ingest_core env tok o r inp od cl idx isu pre).snd
      = pre ++ (if repo_index_exists env r idx then
          (delete_repo_index env r idx).snd else [])
        ++ [Effect.runGitingest (gitingest_cmd env tok inp
            (od ++ "/" ++ o ++ "_" ++ r ++ "_" ++ env.timestamp ++ ".txt"))] ∨
    (ingest_core env tok o r inp od cl idx isu pre).snd
      = pre ++ (if repo_index_exists env r idx then
          (delete_repo_index env r idx).snd else [])
        ++ [Effect.runGitingest (gitingest_cmd env tok inp
            (od ++ "/" ++ o ++ "_" ++ r ++ "_" ++ env.timestamp ++ ".txt"))]
        ++ ((if env.pathExists ("my_repos" ++ "/" ++ o ++ "/" ++ r) then
              [Effect.rmTree ("my_repos" ++ "/" ++ o ++ "/" ++ r)] else [])
            ++ [Effect.mkdirP ("my_repos" ++ "/" ++ o)]
            ++ [Effect.runGitClone ["git", "clone", "--depth", "1",
                  clone_url_of tok inp, "my_repos" ++ "/" ++ o ++ "/" ++ r]]) := by
  have hf := ofile_beq_empty_false od o r env.timestamp
  have h2 := run_gitingest_snd env tok inp _ hf
  have hcs := clone_repo_snd env tok inp o r hparse
  simp only [ingest_core]
  cases hgs : (run_gitingest env tok inp
      (od ++ "/" ++ o ++ "_" ++ r ++ "_" ++ env.timestamp ++ ".txt")).fst.success
  · left
    simp [hgs, h2]
  · by_cases hcl : (cl && isu && !env.isDir inp) = true
    · right
      cases hcf : (clone_repo env tok inp "my_repos" true).fst with
      | ok p => simp [hgs, hcl, hcf, h2, hcs]
      | error e => simp [hgs, hcl, hcf, h2, hcs]
    · left
      have hcl' : (cl && isu && !env.isDir inp) = false :=
        Bool.not_eq_true _ ▸ eq_false_of_ne_true hcl
      simp [hgs, hcl', h2]

/-- Whenever the tail returns a dictionary (rather than propagating an
exception), that dictionary echoes the effective input in `repo_input`. -/
theorem ingest_core_repo_input (env : Env) (tok : Option String)
    (o r inp od idx : String) (cl isu : Bool) (pre : List Effect)
    (res : IngestResult)
    (h : (ingest_core env tok o r inp od cl idx isu pre).fst = Except.ok res) :
    res.repo_input = some inp := by
  have hf := ofile_beq_empty_false od o r env.timestamp
  have hri := run_gitingest_repo_input env tok inp
    (od ++ "/" ++ o ++ "_" ++ r ++ "_" ++ env.timestamp ++ ".txt") hf
  simp only [ingest_core] at h
  cases hgs : (run_gitingest env tok inp
      (od ++ "/" ++ o ++ "_" ++ r ++ "_" ++ env.timestamp ++ ".txt")).fst.success
  · rw [hgs] at h
    simp at h
    rw [← h]
    exact hri
  · rw [hgs] at h
    by_cases hcl : (cl && isu && !env.isDir inp) = true
    · rw [hcl] at h
      cases hcf : (clone_repo env tok inp "my_repos" true).fst with
      | ok p =>
        rw [hcf] at h
        simp at h
        rw [← h]
        simpa using hri
      | error e =>
        rw [hcf] at h
        simp at h
        rw [← h]
        simpa using hri
    · have hcl' : (cl && isu && !env.isDir inp) = false :=
        Bool.not_eq_true _ ▸ eq_false_of_ne_true hcl
      rw [hcl'] at h
      simp at h
      rw [← h]
      simpa using hri

/-! ### Small membership helpers -/

theorem mem_ite_nil (a : Effect) (c : Prop) [Decidable c] (l : List Effect) :
    a ∈ (if c then l else []) ↔ c ∧ a ∈ l := by
  by_cases hc : c <;> simp [hc]

theorem delete_repo_index_snd (env : Env) (r idx : String) :
    (delete_repo_index env r idx).snd
      = if env.pathExists (index_dir idx r) then
          [Effect.rmTree (index_dir idx r)] else [] := by
  unfold delete_repo_index
  by_cases h : env.pathExists (index_dir idx r) = true <;> simp [h]

/-! ### The claims -/

/-- C1: For every remote repository reference, when the ingestion tool
invocation succeeds and the clone invocation succeeds, `ingest_repo`
returns a result with `success = true`, an `output_file` path of the form
`{output_dir}/{owner}_{repo}_{timestamp}.txt`, and a `local_repo` path
equal to `my_repos/{owner}/{repo}` where owner and repo are the segments
parsed from the reference. -/
theorem c1_remote_success_end_to_end (env : Env) (tok : Option String)
    (raw owner repo txt : String)
    (htrim : pyStrip raw = raw) (hne : raw ≠ "")
    (hurl : is_probable_git_url raw = true)
    (hparse : parse_github_url raw = Except.ok (owner, repo))
    (hdir : env.isDir raw = false)
    (hing : ∀ i f, env.gitingestRun i f = ToolOutcome.exits 0 "")
    (hread : ∀ f, env.readFile f = Except.ok txt)
    (hclone : ∀ u d, env.gitCloneRun u d = ToolOutcome.exits 0 "") :
    (ingest_repo env tok raw "gitingest_outputs" true "indexes").fst
      = Except.ok { success := true,
                    structured_text := some "File Successfully Ingested!",
                    repo_input := some raw,
                    output_file := some ("gitingest_outputs" ++ "/" ++ owner
                      ++ "_" ++ repo ++ "_" ++ env.timestamp ++ ".txt"),
                    local_repo := some (some ("my_repos" ++ "/" ++ owner
                      ++ "/" ++ repo)) } := by
  rw [ingest_repo_url_branch env tok raw "gitingest_outputs" "indexes" true
    owner repo htrim hne hurl hparse]
  rw [ingest_core_ok_clone_ok env tok owner repo raw "gitingest_outputs"
    "indexes" [Effect.mkdirP "gitingest_outputs"] "" "" txt (hing _ _)
    (hread _) hdir hparse (hclone _ _)]

/-- Witness for C1 with the all-succeeding stub environment. -/
theorem c1_witness :
    (ingest_repo envFalse none "https://github.com/octo/demo"
      "gitingest_outputs" true "indexes").fst
      = Except.ok { success := true,
                    structured_text := some "File Successfully Ingested!",
                    repo_input := some "https://github.com/octo/demo",
                    output_file := some "gitingest_outputs/octo_demo_20250101_000000.txt",
                    local_repo := some (some "my_repos/octo/demo") } :=
  c1_remote_success_end_to_end envFalse none "https://github.com/octo/demo"
    "octo" "demo" "text" rfl (by decide) rfl rfl rfl (fun _ _ => rfl)
    (fun _ => rfl) (fun _ _ => rfl)

/-- C2 counterexample: `https://example.com/a` is classified as remote,
its pattern does not match, and `ingest_repo` does NOT return a failure
record: the `ValueError` propagates out of the method. -/
theorem c2_counterexample :
    is_probable_git_url "https://example.com/a" = true ∧
    (ingest_repo envFalse none "https://example.com/a" "gitingest_outputs"
        true "indexes").fst
      = Except.error "Invalid GitHub URL: https://example.com/a" :=
  ⟨rfl, rfl⟩

/-- C2 (amended): for a remote-classified input whose owner/repo pattern
does not match, the validation `ValueError` propagates out of
`ingest_repo` to its caller; the HTTP route handler catches it and
returns the uniform failure record with the human-readable message. -/
theorem c2_route_converts_validation_error (env : Env) (tok : Option String)
    (raw e : String)
    (htrim : pyStrip raw = raw) (hne : raw ≠ "")
    (hurl : is_probable_git_url raw = true)
    (hparse : parse_github_url raw = Except.error e) :
    (ingest_repo env (or_none tok) raw "gitingest_outputs" true "indexes").fst
      = Except.error e ∧
    route_ingest env raw tok = { success := false, error := some e } := by
  have h1 : ingest_repo env (or_none tok) raw "gitingest_outputs" true "indexes"
      = (Except.error e, [Effect.mkdirP "gitingest_outputs"]) := by
    unfold ingest_repo
    rw [htrim, if_neg (by simp [hne])]
    simp only [hurl, eq_self_iff_true, if_true]
    rw [hparse]
  exact ⟨by rw [h1], by unfold route_ingest; rw [h1]⟩

/-- Witness for the amended C2. -/
theorem c2_witness :
    (ingest_repo envFalse (or_none none) "https://example.com/a"
        "gitingest_outputs" true "indexes").fst
      = Except.error "Invalid GitHub URL: https://example.com/a" ∧
    route_ingest envFalse "https://example.com/a" none
      = { success := false,
          error := some "Invalid GitHub URL: https://example.com/a" } :=
  c2_route_converts_validation_error envFalse none "https://example.com/a" _
    rfl (by decide) rfl rfl

/-- C3: For every input classified as local that resolves to an existing
directory, `ingest_repo` writes the marker file
`my_repos/Local/{repo}/repopath.txt` whose content is exactly the
resolved absolute path, and the input string passed to the ingestion tool
(the second command-line element) equals that same resolved path. -/
theorem c3_local_marker_and_effective_input (env : Env) (tok : Option String)
    (raw od idx : String) (cl : Bool)
    (htrim : pyStrip raw = raw) (hne : raw ≠ "")
    (hurl : is_probable_git_url raw = false)
    (hdir : env.isDir (normalize_local_path env raw) = true) :
    Effect.writeFile ("my_repos" ++ "/" ++ "Local" ++ "/"
        ++ env.pathName (env.pathResolve (normalize_local_path env raw))
        ++ "/repopath.txt")
        (env.pathResolve (normalize_local_path env raw))
      ∈ (ingest_repo env tok raw od cl idx).snd ∧
    Effect.runGitingest (gitingest_cmd env tok
        (env.pathResolve (normalize_local_path env raw))
        (od ++ "/" ++ "Local" ++ "_"
          ++ env.pathName (env.pathResolve (normalize_local_path env raw))
          ++ "_" ++ env.timestamp ++ ".txt"))
      ∈ (ingest_repo env tok raw od cl idx).snd ∧
    (gitingest_cmd env tok (env.pathResolve (normalize_local_path env raw))
        (od ++ "/" ++ "Local" ++ "_"
          ++ env.pathName (env.pathResolve (normalize_local_path env raw))
          ++ "_" ++ env.timestamp ++ ".txt"))[1]?
      = some (env.pathResolve (normalize_local_path env raw)) := by
  rw [ingest_repo_local_branch env tok raw od idx cl htrim hne hurl hdir]
  obtain ⟨rest, hrest⟩ := ingest_core_snd_shape env tok "Local"
    (env.pathName (env.pathResolve (normalize_local_path env raw)))
    (env.pathResolve (normalize_local_path env raw)) od idx cl false
    ([Effect.mkdirP od]
      ++ [Effect.mkdirP ("my_repos" ++ "/" ++ "Local" ++ "/"
            ++ env.pathName (env.pathResolve (normalize_local_path env raw))),
          Effect.writeFile ("my_repos" ++ "/" ++ "Local" ++ "/"
            ++ env.pathName (env.pathResolve (normalize_local_path env raw))
            ++ "/repopath.txt")
            (env.pathResolve (normalize_local_path env raw))])
  rw [hrest]
  refine ⟨by simp, by simp, rfl⟩

/-- Witness for C3 with a concrete local directory. -/
theorem c3_witness :
    Effect.writeFile "my_repos/Local//abs/mydir/repopath.txt" "/abs/mydir"
      ∈ (ingest_repo envLocal none "mydir" "gitingest_outputs" true "indexes").snd ∧
    Effect.runGitingest ["gitingest", "/abs/mydir", "--output",
        "gitingest_outputs/Local_/abs/mydir_20250101_000000.txt"]
      ∈ (ingest_repo envLocal none "mydir" "gitingest_outputs" true "indexes").snd ∧
    (["gitingest", "/abs/mydir", "--output",
        "gitingest_outputs/Local_/abs/mydir_20250101_000000.txt"] : List String)[1]?
      = some "/abs/mydir" :=
  c3_local_marker_and_effective_input envLocal none "mydir" "gitingest_outputs"
    "indexes" true rfl (by decide) rfl rfl

/-- C4: For every repository name whose three index artifacts all exist
under `indexes/{repo}` at the start of ingestion, `ingest_repo` deletes
the whole `indexes/{repo}` directory, and the deletion effect precedes
the ingestion-tool invocation in the trace. -/
theorem c4_complete_index_deleted_before_tool (env : Env) (tok : Option String)
    (raw owner repo : String)
    (htrim : pyStrip raw = raw) (hne : raw ≠ "")
    (hurl : is_probable_git_url raw = true)
    (hparse : parse_github_url raw = Except.ok (owner, repo))
    (hidx : repo_index_exists env repo "indexes" = true)
    (hex : env.pathExists (index_dir "indexes" repo) = true) :
    ((ingest_repo env tok raw "gitingest_outputs" true "indexes").snd).take 3
      = [Effect.mkdirP "gitingest_outputs",
         Effect.rmTree (index_dir "indexes" repo),
         Effect.runGitingest (gitingest_cmd env tok raw
           ("gitingest_outputs" ++ "/" ++ owner ++ "_" ++ repo ++ "_"
             ++ env.timestamp ++ ".txt"))] := by
  rw [ingest_repo_url_branch env tok raw "gitingest_outputs" "indexes" true
    owner repo htrim hne hurl hparse]
  obtain ⟨rest, hrest⟩ := ingest_core_snd_shape env tok owner repo raw
    "gitingest_outputs" "indexes" true true [Effect.mkdirP "gitingest_outputs"]
  rw [hrest, if_pos hidx]
  unfold delete_repo_index
  rw [if_pos hex]
  rfl

/-- Witness for C4 with a complete on-disk index. -/
theorem c4_witness :
    ((ingest_repo envAllExists none "https://github.com/octo/demo"
        "gitingest_outputs" true "indexes").snd).take 3
      = [Effect.mkdirP "gitingest_outputs",
         Effect.rmTree "indexes/demo",
         Effect.runGitingest ["gitingest", "https://github.com/octo/demo",
           "--output", "gitingest_outputs/octo_demo_20250101_000000.txt"]] :=
  c4_complete_index_deleted_before_tool envAllExists none
    "https://github.com/octo/demo" "octo" "demo" rfl (by decide) rfl rfl rfl rfl

/-- C5: For every remote reference, if the ingestion tool exits non-zero,
the result has `success = false`, its error equals the stripped stderr,
and no clone invocation appears in the trace. -/
theorem c5_tool_failure_error_and_no_clone (env : Env) (tok : Option String)
    (raw owner repo st : String) (rc : Nat)
    (htrim : pyStrip raw = raw) (hne : raw ≠ "")
    (hurl : is_probable_git_url raw = true)
    (hparse : parse_github_url raw = Except.ok (owner, repo))
    (hrun : env.gitingestRun raw ("gitingest_outputs" ++ "/" ++ owner ++ "_"
        ++ repo ++ "_" ++ env.timestamp ++ ".txt") = ToolOutcome.exits rc st)
    (hrc : rc ≠ 0) :
    (ingest_repo env tok raw "gitingest_outputs" true "indexes").fst
      = Except.ok { success := false, error := some (pyStrip st),
                    repo_input := some raw } ∧
    ∀ c, Effect.runGitClone c
        ∉ (ingest_repo env tok raw "gitingest_outputs" true "indexes").snd := by
  rw [ingest_repo_url_branch env tok raw "gitingest_outputs" "indexes" true
    owner repo htrim hne hurl hparse]
  rw [ingest_core_tool_fail env tok owner repo raw "gitingest_outputs" "indexes"
    true true [Effect.mkdirP "gitingest_outputs"] rc st hrun hrc]
  refine ⟨rfl, ?_⟩
  intro c hc
  simp [mem_ite_nil, delete_repo_index_snd] at hc

/-- Witness for C5 with the tool exiting 1 and stderr `auth failed`. -/
theorem c5_witness :
    (ingest_repo envToolFails none "https://github.com/octo/demo"
        "gitingest_outputs" true "indexes").fst
      = Except.ok { success := false, error := some "auth failed",
                    repo_input := some "https://github.com/octo/demo" } ∧
    Effect.runGitClone ["git", "clone", "--depth", "1",
        "https://github.com/octo/demo", "my_repos/octo/demo"]
      ∉ (ingest_repo envToolFails none "https://github.com/octo/demo"
          "gitingest_outputs" true "indexes").snd :=
  ⟨(c5_tool_failure_error_and_no_clone envToolFails none
      "https://github.com/octo/demo" "octo" "demo" "auth failed" 1 rfl
      (by decide) rfl rfl rfl (by decide)).1,
   (c5_tool_failure_error_and_no_clone envToolFails none
      "https://github.com/octo/demo" "octo" "demo" "auth failed" 1 rfl
      (by decide) rfl rfl rfl (by decide)).2 _⟩

/-- C6: For every remote reference where ingestion succeeded and cloning
was requested, if the clone operation fails, the overall result keeps
`success = true` and carries `local_repo = null` with no error. -/
theorem c6_clone_failure_nonfatal (env : Env) (tok : Option String)
    (raw owner repo st cst txt : String) (rc : Nat)
    (htrim : pyStrip raw = raw) (hne : raw ≠ "")
    (hurl : is_probable_git_url raw = true)
    (hparse : parse_github_url raw = Except.ok (owner, repo))
    (hdir : env.isDir raw = false)
    (hrun : env.gitingestRun raw ("gitingest_outputs" ++ "/" ++ owner ++ "_"
        ++ repo ++ "_" ++ env.timestamp ++ ".txt") = ToolOutcome.exits 0 st)
    (hread : env.readFile ("gitingest_outputs" ++ "/" ++ owner ++ "_"
        ++ repo ++ "_" ++ env.timestamp ++ ".txt") = Except.ok txt)
    (hclone : env.gitCloneRun (clone_url_of tok raw)
        ("my_repos" ++ "/" ++ owner ++ "/" ++ repo) = ToolOutcome.exits rc cst)
    (hrc : rc ≠ 0) :
    (ingest_repo env tok raw "gitingest_outputs" true "indexes").fst
      = Except.ok { success := true,
                    structured_text := some "File Successfully Ingested!",
                    repo_input := some raw,
                    output_file := some ("gitingest_outputs" ++ "/" ++ owner
                      ++ "_" ++ repo ++ "_" ++ env.timestamp ++ ".txt"),
                    local_repo := some none } := by
  rw [ingest_repo_url_branch env tok raw "gitingest_outputs" "indexes" true
    owner repo htrim hne hurl hparse]
  rw [ingest_core_ok_clone_fail env tok owner repo raw "gitingest_outputs"
    "indexes" [Effect.mkdirP "gitingest_outputs"] st cst txt rc hrun hread
    hdir hparse hclone hrc]

/-- Witness for C6 with a failing clone client. -/
theorem c6_witness :
    (ingest_repo envCloneFails none "https://github.com/octo/demo"
        "gitingest_outputs" true "indexes").fst
      = Except.ok { success := true,
                    structured_text := some "File Successfully Ingested!",
                    repo_input := some "https://github.com/octo/demo",
                    output_file := some "gitingest_outputs/octo_demo_20250101_000000.txt",
                    local_repo := some none } :=
  c6_clone_failure_nonfatal envCloneFails none "https://github.com/octo/demo"
    "octo" "demo" "" "fatal: repo not found" "text" 128 rfl (by decide) rfl rfl
    rfl rfl rfl rfl (by decide)

/-- C7: For every input classified as local whose normalized path is not
an existing directory, `ingest_repo` returns a failure result with a
not-found message and writes no marker file. -/
theorem c7_local_missing_no_marker (env : Env) (tok : Option String)
    (raw od idx : String) (cl : Bool)
    (htrim : pyStrip raw = raw) (hne : raw ≠ "")
    (hurl : is_probable_git_url raw = false)
    (hdir : env.isDir (normalize_local_path env raw) = false) :
    (ingest_repo env tok raw od cl idx).fst
      = Except.ok { success := false,
                    error := some ("Local path not found or not a directory: "
                      ++ normalize_local_path env raw) } ∧
    ∀ p c, Effect.writeFile p c ∉ (ingest_repo env tok raw od cl idx).snd := by
  rw [ingest_repo_local_missing env tok raw od idx cl htrim hne hurl hdir]
  refine ⟨rfl, ?_⟩
  intro p c hc
  simp at hc

/-- Witness for C7 with a missing local directory. -/
theorem c7_witness :
    (ingest_repo envFalse none "missingdir" "gitingest_outputs" true "indexes").fst
      = Except.ok { success := false,
                    error := some "Local path not found or not a directory: missingdir" } ∧
    Effect.writeFile "my_repos/Local/missingdir/repopath.txt" "missingdir"
      ∉ (ingest_repo envFalse none "missingdir" "gitingest_outputs" true "indexes").snd :=
  ⟨(c7_local_missing_no_marker envFalse none "missingdir" "gitingest_outputs"
      "indexes" true rfl (by decide) rfl rfl).1,
   (c7_local_missing_no_marker envFalse none "missingdir" "gitingest_outputs"
      "indexes" true rfl (by decide) rfl rfl).2 _ _⟩

/-- C9 counterexample: for the local input `mydir`, the returned record's
`repo_input` field is the resolved absolute path, not the original input
string. -/
theorem c9_counterexample :
    (ingest_repo envLocal none "mydir" "gitingest_outputs" true "indexes").fst
      = Except.ok { success := true,
                    structured_text := some "File Successfully Ingested!",
                    repo_input := some "/abs/mydir",
                    output_file := some "gitingest_outputs/Local_/abs/mydir_20250101_000000.txt" } ∧
    some "/abs/mydir" ≠ some "mydir" :=
  ⟨rfl, by decide⟩

/-- C9 (amended): whenever `ingest_repo` reaches the ingestion tool, the
returned record echoes the EFFECTIVE input in `repo_input`: the trimmed
reference for remote inputs, and the resolved absolute path for local
inputs (the early validation failures carry no repo identifier). -/
theorem c9_result_echoes_effective_input (env : Env) (tok : Option String)
    (raw od idx : String) (cl : Bool) (owner repo : String)
    (htrim : pyStrip raw = raw) (hne : raw ≠ "") :
    (∀ res, is_probable_git_url raw = true →
      parse_github_url raw = Except.ok (owner, repo) →
      (ingest_repo env tok raw od cl idx).fst = Except.ok res →
      res.repo_input = some raw) ∧
    (∀ res, is_probable_git_url raw = false →
      env.isDir (normalize_local_path env raw) = true →
      (ingest_repo env tok raw od cl idx).fst = Except.ok res →
      res.repo_input = some (env.pathResolve (normalize_local_path env raw))) := by
  constructor
  · intro res hurl hparse hres
    rw [ingest_repo_url_branch env tok raw od idx cl owner repo htrim hne hurl
      hparse] at hres
    exact ingest_core_repo_input env tok owner repo raw od idx cl true _ res hres
  · intro res hurl hdir hres
    rw [ingest_repo_local_branch env tok raw od idx cl htrim hne hurl hdir]
      at hres
    exact ingest_core_repo_input env tok "Local" _ _ od idx cl false _ res hres

/-- Witness for the amended C9, at a remote and a local input. -/
theorem c9_witness :
    ({ success := true, structured_text := some "File Successfully Ingested!",
       repo_input := some "https://github.com/octo/demo",
       output_file := some "gitingest_outputs/octo_demo_20250101_000000.txt",
       local_repo := some (some "my_repos/octo/demo") } : IngestResult).repo_input
      = some "https://github.com/octo/demo" ∧
    ({ success := true, structured_text := some "File Successfully Ingested!",
       repo_input := some "/abs/mydir",
       output_file := some "gitingest_outputs/Local_/abs/mydir_20250101_000000.txt" }
      : IngestResult).repo_input
      = some "/abs/mydir" :=
  ⟨(c9_result_echoes_effective_input envFalse none "https://github.com/octo/demo"
      "gitingest_outputs" "indexes" true "octo" "demo" rfl (by decide)).1 _
      rfl rfl rfl,
   (c9_result_echoes_effective_input envLocal none "mydir"
      "gitingest_outputs" "indexes" true "octo" "demo" rfl (by decide)).2 _
      rfl rfl rfl⟩

/-- C10: For every repository whose index is incomplete (at least one of
the three artifacts missing), an ingestion run never deletes that index
directory: the only directory a run may remove is the stale clone under
`my_repos/{owner}/{repo}`, and no file is written. -/
theorem c10_partial_index_never_deleted (env : Env) (tok : Option String)
    (raw owner repo : String)
    (htrim : pyStrip raw = raw) (hne : raw ≠ "")
    (hurl : is_probable_git_url raw = true)
    (hparse : parse_github_url raw = Except.ok (owner, repo))
    (hidx : repo_index_exists env repo "indexes" = false) :
    (∀ d, Effect.rmTree d
        ∈ (ingest_repo env tok raw "gitingest_outputs" true "indexes").snd
      → d = "my_repos" ++ "/" ++ owner ++ "/" ++ repo) ∧
    (∀ p c, Effect.writeFile p c
        ∉ (ingest_repo env tok raw "gitingest_outputs" true "indexes").snd) := by
  rw [ingest_repo_url_branch env tok raw "gitingest_outputs" "indexes" true
    owner repo htrim hne hurl hparse]
  rcases ingest_core_snd_cases env tok owner repo raw "gitingest_outputs"
      "indexes" true true [Effect.mkdirP "gitingest_outputs"] hparse with h | h
  · rw [h]
    constructor
    · intro d hd
      simp [hidx] at hd
    · intro p c hc
      simp [hidx] at hc
  · rw [h]
    constructor
    · intro d hd
      simp [hidx, mem_ite_nil] at hd
      exact hd.2
    · intro p c hc
      simp [hidx, mem_ite_nil] at hc

/-- Witness for C10: with no index artifacts present, the index directory
is not removed. -/
theorem c10_witness :
    Effect.rmTree (index_dir "indexes" "demo")
      ∉ (ingest_repo envFalse none "https://github.com/octo/demo"
          "gitingest_outputs" true "indexes").snd := by
  intro h
  have hd := (c10_partial_index_never_deleted envFalse none
    "https://github.com/octo/demo" "octo" "demo" rfl (by decide) rfl rfl
    rfl).1 (index_dir "indexes" "demo") h
  exact absurd hd (by decide)
